import Mathlib

/-!
Verification of the md-writer library (src/src/lib.rs), a collection of pure
string-formatting helpers that produce Markdown fragments.  Rust strings are
embedded as `List Char` (sequences of Unicode scalar values); `&str` and
`String` coincide in this model.  Every function of the library is translated
below, keeping the source names.
-/

namespace MdWriter

/-- The line feed control character (`pub const LF: char = '\n';`). -/
def LF : Char := '\n'

/-- The backtick character, U+0060, written via its code point. -/
def BACKTICK : Char := Char.ofNat 96

/-- Create a Markdown code fence.  Source: builds `"`".repeat(3)` and then
appends `info_string.unwrap_or("")`. -/
def code_fence (info_string : Option (List Char)) : List Char :=
  List.replicate 3 BACKTICK ++ info_string.getD []

/-- Create a Markdown code span.  Source: `format!("`{code}`")`. -/
def code_span (code : List Char) : List Char :=
  [BACKTICK] ++ code ++ [BACKTICK]

/-- Create a Markdown fenced code block.  Source: joins
`[code_fence(info_string), code, code_fence(None)]` with `LF`. -/
def fenced_code_block (code : List Char) (info_string : Option (List Char)) :
    List Char :=
  List.intercalate [LF] [code_fence info_string, code, code_fence none]

/-- Fenced code block with a JavaScript info string. -/
def fenced_js_code_block (code : List Char) : List Char :=
  fenced_code_block code (some "javascript".data)

/-- Fenced code block with a Rust info string. -/
def fenced_rs_code_block (code : List Char) : List Char :=
  fenced_code_block code (some "rust".data)

/-- Fenced code block with a shell script info string. -/
def fenced_sh_code_block (code : List Char) : List Char :=
  fenced_code_block code (some "shell".data)

/-- Fenced code block with a TypeScript info string. -/
def fenced_ts_code_block (code : List Char) : List Char :=
  fenced_code_block code (some "typescript".data)

/-- Create a level 1 Markdown setext header.  Source: text, then `LF`, then
`"=".repeat(text.chars().count())`. -/
def h1 (text : List Char) : List Char :=
  text ++ [LF] ++ List.replicate text.length '='

/-- Create a level 2 Markdown setext header.  Source: text, then `LF`, then
`"-".repeat(text.chars().count())`. -/
def h2 (text : List Char) : List Char :=
  text ++ [LF] ++ List.replicate text.length '-'

/-- Create a level 3 Markdown ATX header.  Source: `format!("### {text}")`. -/
def h3 (text : List Char) : List Char :=
  "### ".data ++ text

/-- Create a level 4 Markdown ATX header. -/
def h4 (text : List Char) : List Char :=
  "#### ".data ++ text

/-- Create a level 5 Markdown ATX header. -/
def h5 (text : List Char) : List Char :=
  "##### ".data ++ text

/-- Create a level 6 Markdown ATX header. -/
def h6 (text : List Char) : List Char :=
  "###### ".data ++ text

/-!
Fallibility model.  The only primitive in the source with a failure mode is
`str::repeat`, which panics when the required capacity exceeds what a `usize`
can represent.  `repeatChecked` models it; `Checked` variants of the library
functions thread the possible failure through, so that totality claims become
theorems rather than typing conventions.
-/

/-- The largest value representable by a 64-bit `usize`. -/
def USIZE_MAX : Nat := 2 ^ 64 - 1

/-- Model of Rust `str::repeat`: fails (panics) when the required capacity
`s.len() * n` exceeds `USIZE_MAX`, otherwise returns `s` repeated `n` times. -/
def repeatChecked (s : List Char) (n : Nat) : Option (List Char) :=
  if s.length * n ≤ USIZE_MAX then some (List.flatten (List.replicate n s))
  else none

/-- `code_fence` with the `repeat` call modelled as fallible. -/
def code_fenceChecked (info_string : Option (List Char)) :
    Option (List Char) :=
  (repeatChecked [BACKTICK] 3).map (fun f => f ++ info_string.getD [])

/-- `code_span` contains no fallible primitive. -/
def code_spanChecked (code : List Char) : Option (List Char) :=
  some ([BACKTICK] ++ code ++ [BACKTICK])

/-- `fenced_code_block` with both `code_fence` calls modelled as fallible. -/
def fenced_code_blockChecked (code : List Char)
    (info_string : Option (List Char)) : Option (List Char) :=
  (code_fenceChecked info_string).bind fun opening =>
    (code_fenceChecked none).map fun closing =>
      List.intercalate [LF] [opening, code, closing]

/-- Fallible model of `fenced_js_code_block`. -/
def fenced_js_code_blockChecked (code : List Char) : Option (List Char) :=
  fenced_code_blockChecked code (some "javascript".data)

/-- Fallible model of `fenced_rs_code_block`. -/
def fenced_rs_code_blockChecked (code : List Char) : Option (List Char) :=
  fenced_code_blockChecked code (some "rust".data)

/-- Fallible model of `fenced_sh_code_block`. -/
def fenced_sh_code_blockChecked (code : List Char) : Option (List Char) :=
  fenced_code_blockChecked code (some "shell".data)

/-- Fallible model of `fenced_ts_code_block`. -/
def fenced_ts_code_blockChecked (code : List Char) : Option (List Char) :=
  fenced_code_blockChecked code (some "typescript".data)

/-- `h1` with the `repeat` call modelled as fallible. -/
def h1Checked (text : List Char) : Option (List Char) :=
  (repeatChecked ['='] text.length).map fun underline =>
    text ++ [LF] ++ underline

/-- `h2` with the `repeat` call modelled as fallible. -/
def h2Checked (text : List Char) : Option (List Char) :=
  (repeatChecked ['-'] text.length).map fun underline =>
    text ++ [LF] ++ underline

/-- `h3` contains no fallible primitive. -/
def h3Checked (text : List Char) : Option (List Char) :=
  some ("### ".data ++ text)

/-- `h4` contains no fallible primitive. -/
def h4Checked (text : List Char) : Option (List Char) :=
  some ("#### ".data ++ text)

/-- `h5` contains no fallible primitive. -/
def h5Checked (text : List Char) : Option (List Char) :=
  some ("##### ".data ++ text)

/-- `h6` contains no fallible primitive. -/
def h6Checked (text : List Char) : Option (List Char) :=
  some ("###### ".data ++ text)

/-!
General lemmas about `List.splitOnP` needed for the line-structure claims.
-/

/-- Splitting at a separator distributes over an occurrence of the
separator. -/
theorem splitOnP_append_sep {α : Type _} (p : α → Bool) (x : α)
    (hx : p x = true) (u v : List α) :
    (u ++ x :: v).splitOnP p = u.splitOnP p ++ v.splitOnP p := by
  induction u with
  | nil => simp [List.splitOnP_nil, List.splitOnP_cons, hx]
  | cons a u ih =>
    rw [List.cons_append, List.splitOnP_cons, List.splitOnP_cons, ih]
    by_cases h : p a
    · simp [h]
    · simp only [h, Bool.false_eq_true, if_false]
      cases hu : u.splitOnP p with
      | nil => exact absurd hu (List.splitOnP_ne_nil p u)
      | cons s ss => simp [hu, List.modifyHead]

/-- The number of chunks produced by `splitOnP` is one more than the number
of separators. -/
theorem length_splitOnP {α : Type _} (p : α → Bool) (l : List α) :
    (l.splitOnP p).length = l.countP p + 1 := by
  induction l with
  | nil => simp [List.splitOnP_nil]
  | cons a l ih =>
    rw [List.splitOnP_cons]
    by_cases h : p a
    · simp [h, List.countP_cons, ih, Nat.add_comm]
    · simp [h, List.countP_cons, List.length_modifyHead, ih]

/-- A repeated singleton piece flattens to a `replicate`. -/
theorem flatten_replicate_singleton {α : Type _} (c : α) (n : Nat) :
    List.flatten (List.replicate n [c]) = List.replicate n c := by
  induction n with
  | zero => rfl
  | succ n ih => simp [List.replicate_succ, ih]

/-- `repeatChecked` on a one-character string succeeds below the bound. -/
theorem repeatChecked_singleton (c : Char) (n : Nat) (h : n ≤ USIZE_MAX) :
    repeatChecked [c] n = some (List.replicate n c) := by
  rw [repeatChecked, if_pos (by simpa using h), flatten_replicate_singleton]

/-- The line feed does not occur in a code fence whose info string avoids
it. -/
theorem lf_not_mem_code_fence (info : Option (List Char))
    (h : LF ∉ info.getD []) : LF ∉ code_fence info := by
  intro hmem
  rcases List.mem_append.1 hmem with h1 | h2
  · exact absurd (List.eq_of_mem_replicate h1) (by decide)
  · exact h h2

/-- Unfolding of the three-way `LF` join inside `fenced_code_block`. -/
theorem fenced_code_block_eq (code : List Char) (info : Option (List Char)) :
    fenced_code_block code info =
      code_fence info ++ LF :: (code ++ LF :: code_fence none) := by
  simp [fenced_code_block, List.intercalate]

/-- Splitting `A ++ LF ++ code ++ LF ++ B` on `LF`, when `A` and `B` are
`LF`-free, yields `A`, then the split of `code`, then `B`. -/
theorem splitOn_three_parts (A B code : List Char) (hA : LF ∉ A)
    (hB : LF ∉ B) :
    (A ++ LF :: (code ++ LF :: B)).splitOn LF =
      A :: (code.splitOn LF ++ [B]) := by
  have hA' : ∀ x ∈ A, ¬((x == LF) = true) := by
    intro x hx hbeq
    exact hA (eq_of_beq hbeq ▸ hx)
  have hB' : ∀ x ∈ B, ¬((x == LF) = true) := by
    intro x hx hbeq
    exact hB (eq_of_beq hbeq ▸ hx)
  show (A ++ LF :: (code ++ LF :: B)).splitOnP (· == LF) = _
  rw [List.splitOnP_first _ A hA' LF (by simp) (code ++ LF :: B),
    splitOnP_append_sep (· == LF) LF (by simp) code B,
    List.splitOnP_eq_single _ B hB']
  rfl

/-- The chunks of `splitOn` number one more than the separators. -/
theorem length_splitOn (l : List Char) (x : Char) :
    (l.splitOn x).length = l.count x + 1 :=
  length_splitOnP (· == x) l

/-- The full line decomposition of `fenced_code_block`, for an info string
that avoids the line feed. -/
theorem fenced_code_block_splitOn (code : List Char)
    (info : Option (List Char)) (hinfo : LF ∉ info.getD []) :
    (fenced_code_block code info).splitOn LF =
      code_fence info :: (code.splitOn LF ++ [code_fence none]) := by
  rw [fenced_code_block_eq]
  exact splitOn_three_parts _ _ _ (lf_not_mem_code_fence info hinfo)
    (lf_not_mem_code_fence none (by simp))

/-- Claim C1: for every code string and optional info string,
`fenced_code_block code info` is the concatenation of `code_fence info`, one
line feed, the code verbatim, one line feed, and `code_fence none`; the
closing fence is the bare three-backtick fence, and the line feed is always
U+000A. -/
theorem fenced_code_block_concatenation :
    (∀ code info, fenced_code_block code info =
      code_fence info ++ [LF] ++ code ++ [LF] ++ code_fence none) ∧
    code_fence none = List.replicate 3 BACKTICK ∧
    LF = Char.ofNat 10 := by
  refine ⟨fun code info => ?_, by simp [code_fence], by decide⟩
  rw [fenced_code_block_eq]
  simp

/-- Claim C2, counterexample: already at the one-character code string with
no info string, the split has three lines, not `2 + 0`; and with an info
string that itself contains a line feed, the first line of the split is not
`code_fence info`. -/
theorem fenced_code_block_lines_counterexample :
    ¬ (((fenced_code_block ['x'] none).splitOn LF).length =
        2 + (['x'].count LF)) ∧
    ¬ (((fenced_code_block ['x'] (some [LF])).splitOn LF).head? =
        some (code_fence (some [LF]))) := by
  refine ⟨by decide, by decide⟩

/-- Claim C2, amended: provided the info string contains no line feed, the
split of `fenced_code_block code info` on `LF` has exactly
`3 + (line feeds in code)` lines, its first line is `code_fence info`, its
last line is `code_fence none`, and the interior lines rejoined with `LF`
reconstruct `code`. -/
theorem fenced_code_block_lines (code : List Char)
    (info : Option (List Char)) (hinfo : LF ∉ info.getD []) :
    ((fenced_code_block code info).splitOn LF).length =
      3 + code.count LF ∧
    ((fenced_code_block code info).splitOn LF).head? =
      some (code_fence info) ∧
    ((fenced_code_block code info).splitOn LF).getLast? =
      some (code_fence none) ∧
    [LF].intercalate
      ((((fenced_code_block code info).splitOn LF).drop 1).dropLast) =
      code := by
  rw [fenced_code_block_splitOn code info hinfo]
  refine ⟨?_, rfl, ?_, ?_⟩
  · rw [List.length_cons, List.length_append, length_splitOn,
      List.length_singleton]
    omega
  · rw [show code_fence info :: (code.splitOn LF ++ [code_fence none]) =
      (code_fence info :: code.splitOn LF) ++ [code_fence none] from rfl]
    exact List.getLast?_concat _
  · rw [List.drop_one, List.tail_cons, List.dropLast_concat]
    exact List.intercalate_splitOn code LF

/-- Witness for the amended claim C2 at a concrete input. -/
theorem fenced_code_block_lines_witness :
    LF ∉ (some ['r', 's']).getD [] ∧
    (((fenced_code_block ['a', LF, 'b'] (some ['r', 's'])).splitOn
        LF).length = 3 + (['a', LF, 'b'].count LF) ∧
    ((fenced_code_block ['a', LF, 'b'] (some ['r', 's'])).splitOn
        LF).head? = some (code_fence (some ['r', 's'])) ∧
    ((fenced_code_block ['a', LF, 'b'] (some ['r', 's'])).splitOn
        LF).getLast? = some (code_fence none) ∧
    [LF].intercalate
      ((((fenced_code_block ['a', LF, 'b'] (some ['r', 's'])).splitOn
        LF).drop 1).dropLast) = ['a', LF, 'b']) :=
  ⟨by decide, fenced_code_block_lines ['a', LF, 'b'] (some ['r', 's'])
    (by decide)⟩

/-- Claim C3, counterexample: when the text itself contains a line feed,
`h1` does not split into exactly two lines. -/
theorem h1_lines_counterexample : ((h1 [LF]).splitOn LF).length ≠ 2 := by
  decide

/-- Claim C3, amended with the hypothesis that the text contains no line
feed: `h1 t` splits on `LF` into exactly the two lines `t` and a run of `=`
of length the character count of `t`; `h2` likewise with `-`. -/
theorem h1_h2_lines (t : List Char) (ht : LF ∉ t) :
    (h1 t).splitOn LF = [t, List.replicate t.length '='] ∧
    (h2 t).splitOn LF = [t, List.replicate t.length '-'] := by
  have ht' : ∀ x ∈ t, ¬((x == LF) = true) := by
    intro x hx hbeq
    exact ht (eq_of_beq hbeq ▸ hx)
  constructor
  · show (t ++ [LF] ++ List.replicate t.length '=').splitOnP (· == LF) = _
    rw [List.append_assoc, List.singleton_append]
    rw [List.splitOnP_first _ t ht' LF (by simp) _]
    rw [List.splitOnP_eq_single _ _ ?_]
    intro x hx hbeq
    rw [List.eq_of_mem_replicate hx] at hbeq
    exact absurd (eq_of_beq hbeq) (by decide)
  · show (t ++ [LF] ++ List.replicate t.length '-').splitOnP (· == LF) = _
    rw [List.append_assoc, List.singleton_append]
    rw [List.splitOnP_first _ t ht' LF (by simp) _]
    rw [List.splitOnP_eq_single _ _ ?_]
    intro x hx hbeq
    rw [List.eq_of_mem_replicate hx] at hbeq
    exact absurd (eq_of_beq hbeq) (by decide)

/-- Witness for the amended claim C3 at a concrete input. -/
theorem h1_h2_lines_witness :
    LF ∉ ['H', 'i'] ∧
    ((h1 ['H', 'i']).splitOn LF =
      [['H', 'i'], List.replicate (['H', 'i'] : List Char).length '='] ∧
    (h2 ['H', 'i']).splitOn LF =
      [['H', 'i'], List.replicate (['H', 'i'] : List Char).length '-']) :=
  ⟨by decide, h1_h2_lines ['H', 'i'] (by decide)⟩

/-- Claim C4: `code_fence s` starts with exactly three backticks and the
suffix after them is `s` when supplied and empty when absent; equivalently it
is three backticks followed by the (possibly empty) info string, with no
validation. -/
theorem code_fence_prefix_suffix :
    ∀ s, (code_fence s).take 3 = List.replicate 3 BACKTICK ∧
      (code_fence s).drop 3 = s.getD [] ∧
      code_fence s = List.replicate 3 BACKTICK ++ s.getD [] := by
  intro s
  refine ⟨?_, ?_, rfl⟩
  · rw [code_fence]
    show List.take (List.replicate 3 BACKTICK).length
      (List.replicate 3 BACKTICK ++ s.getD []) = _
    exact List.take_left _ _
  · rw [code_fence]
    show List.drop (List.replicate 3 BACKTICK).length
      (List.replicate 3 BACKTICK ++ s.getD []) = _
    exact List.drop_left _ _

/-- Claim C5: `code_span t` is one backtick, then `t` verbatim, then one
backtick. -/
theorem code_span_eq :
    ∀ t, code_span t = BACKTICK :: (t ++ [BACKTICK]) := by
  intro t
  rfl

/-- Claim C6: each language-tagged builder equals the generic builder at its
hardcoded info string. -/
theorem tagged_builders_eq :
    (∀ c, fenced_js_code_block c =
      fenced_code_block c (some "javascript".data)) ∧
    (∀ c, fenced_rs_code_block c =
      fenced_code_block c (some "rust".data)) ∧
    (∀ c, fenced_sh_code_block c =
      fenced_code_block c (some "shell".data)) ∧
    (∀ c, fenced_ts_code_block c =
      fenced_code_block c (some "typescript".data)) :=
  ⟨fun _ => rfl, fun _ => rfl, fun _ => rfl, fun _ => rfl⟩

/-- Claim C7: `h3` through `h6` are a prefix of 3 to 6 hash characters, one
space, then the text unmodified, as a single line. -/
theorem atx_headers_eq :
    ∀ t, h3 t = List.replicate 3 '#' ++ ' ' :: t ∧
      h4 t = List.replicate 4 '#' ++ ' ' :: t ∧
      h5 t = List.replicate 5 '#' ++ ' ' :: t ∧
      h6 t = List.replicate 6 '#' ++ ' ' :: t := by
  intro t
  exact ⟨rfl, rfl, rfl, rfl⟩

/-- Claim C8: under the fallibility model in which only the string-repeat
primitive can fail, every function except `h1` and `h2` always succeeds, and
`h1`/`h2` succeed exactly when the required underline length is at most the
maximum representable repeated-string length. -/
theorem totality_and_failure_profile :
    (∀ i, code_fenceChecked i = some (code_fence i)) ∧
    (∀ c, code_spanChecked c = some (code_span c)) ∧
    (∀ c i, fenced_code_blockChecked c i = some (fenced_code_block c i)) ∧
    (∀ c, fenced_js_code_blockChecked c = some (fenced_js_code_block c)) ∧
    (∀ c, fenced_rs_code_blockChecked c = some (fenced_rs_code_block c)) ∧
    (∀ c, fenced_sh_code_blockChecked c = some (fenced_sh_code_block c)) ∧
    (∀ c, fenced_ts_code_blockChecked c = some (fenced_ts_code_block c)) ∧
    (∀ t, h3Checked t = some (h3 t)) ∧
    (∀ t, h4Checked t = some (h4 t)) ∧
    (∀ t, h5Checked t = some (h5 t)) ∧
    (∀ t, h6Checked t = some (h6 t)) ∧
    (∀ t, h1Checked t =
      if t.length ≤ USIZE_MAX then some (h1 t) else none) ∧
    (∀ t, h2Checked t =
      if t.length ≤ USIZE_MAX then some (h2 t) else none) ∧
    (∀ t, (h1Checked t).isSome ↔ t.length ≤ USIZE_MAX) ∧
    (∀ t, (h2Checked t).isSome ↔ t.length ≤ USIZE_MAX) := by
  have hfence : ∀ i, code_fenceChecked i = some (code_fence i) := by
    intro i
    rw [code_fenceChecked,
      repeatChecked_singleton BACKTICK 3 (by simp [USIZE_MAX])]
    rfl
  have h1c : ∀ t, h1Checked t =
      if t.length ≤ USIZE_MAX then some (h1 t) else none := by
    intro t
    rw [h1Checked, repeatChecked]
    by_cases h : t.length ≤ USIZE_MAX
    · rw [if_pos (by simpa using h), if_pos h, flatten_replicate_singleton]
      rfl
    · rw [if_neg (by simpa using h), if_neg h]
      rfl
  have h2c : ∀ t, h2Checked t =
      if t.length ≤ USIZE_MAX then some (h2 t) else none := by
    intro t
    rw [h2Checked, repeatChecked]
    by_cases h : t.length ≤ USIZE_MAX
    · rw [if_pos (by simpa using h), if_pos h, flatten_replicate_singleton]
      rfl
    · rw [if_neg (by simpa using h), if_neg h]
      rfl
  refine ⟨hfence, fun _ => rfl, fun c i => ?_, fun c => ?_, fun c => ?_,
    fun c => ?_, fun c => ?_, fun _ => rfl, fun _ => rfl, fun _ => rfl,
    fun _ => rfl, h1c, h2c, fun t => ?_, fun t => ?_⟩
  · rw [fenced_code_blockChecked, hfence, hfence]
    rfl
  · rw [fenced_js_code_blockChecked, fenced_code_blockChecked, hfence, hfence]
    rfl
  · rw [fenced_rs_code_blockChecked, fenced_code_blockChecked, hfence, hfence]
    rfl
  · rw [fenced_sh_code_blockChecked, fenced_code_blockChecked, hfence, hfence]
    rfl
  · rw [fenced_ts_code_blockChecked, fenced_code_blockChecked, hfence, hfence]
    rfl
  · rw [h1c t]
    by_cases h : t.length ≤ USIZE_MAX <;> simp [h]
  · rw [h2c t]
    by_cases h : t.length ≤ USIZE_MAX <;> simp [h]

/-- Claim C9: an explicitly empty info string renders identically to an
absent one, both for the fence and for the whole fenced code block. -/
theorem empty_info_eq_absent :
    code_fence (some []) = code_fence none ∧
    ∀ c, fenced_code_block c (some []) = fenced_code_block c none :=
  ⟨rfl, fun _ => rfl⟩

/-- Claim C10: on the empty code string the builder still emits an empty
middle line between the two fences; concretely,
`fenced_code_block "" none` splits into three lines with the middle one
empty. -/
theorem fenced_code_block_empty_code :
    (∀ info, fenced_code_block [] info =
      code_fence info ++ [LF] ++ [LF] ++ code_fence none) ∧
    fenced_code_block [] none = "```\n\n```".data ∧
    (fenced_code_block [] none).splitOn LF =
      ["```".data, [], "```".data] := by
  refine ⟨fun info => ?_, by decide, by decide⟩
  rw [fenced_code_block_eq]
  simp

end MdWriter
